import Mathlib

/-!
# Verification of the Nhom3_OOP chess engine against its specification

Shallow embedding of the chess rules engine (headers under `src/src/`).
Functions whose bodies appear inline in the headers (`Position::isValid`,
the `Move` struct, `Player::subtractTime` / `hasTimeLeft`,
`Board::getLastMove` / `hasLastMove`) are translated directly from that
code.  Functions that are only declared in the headers (the bodies of
`Board::isMoveLegal`, `Game::makeMove`, ... are not in the repository)
are modelled from the specification, as marked in their doc comments.
-/

namespace Chess

/-- `enum class Color` from `Piece.h`. -/
inductive Color where
  | WHITE
  | BLACK
deriving DecidableEq

/-- The opposite color (used throughout the engine for "enemy" queries). -/
def Color.opposite : Color → Color
  | Color.WHITE => Color.BLACK
  | Color.BLACK => Color.WHITE

/-- `struct Position` from `Piece.h`: row and column are C++ `int`s. -/
structure Position where
  row : Int
  col : Int
deriving DecidableEq

/-- `Position::isValid` from `Piece.h`:
`row >= 0 && row < 8 && col >= 0 && col < 8`. -/
def Position.isValid (p : Position) : Bool :=
  decide (p.row ≥ 0) && decide (p.row < 8) && decide (p.col ≥ 0) && decide (p.col < 8)

/-- `struct Move` from `Piece.h`.  The struct holds exactly a source and a
destination position (`from` and `to` are reserved words in Lean, hence
the field names `from_` and `to_`); it has no promotion-piece member and
no special-move flags, and its `operator==` compares `from` and `to`
componentwise. -/
structure Move where
  from_ : Position
  to_ : Position
deriving DecidableEq

/-- Piece kinds: the closed set of piece classes
(`Pawn.h`, `Rook.h`, `Knight.h`, `Bishop.h`, `Queen.h`, `King.h`). -/
inductive PieceType where
  | PAWN
  | KNIGHT
  | BISHOP
  | ROOK
  | QUEEN
  | KING
deriving DecidableEq

/-- The data of class `Piece` (`Piece.h`): color and the `hasMoved_` flag,
together with the dynamic type of the object.  The `position_` member is
redundant with the square holding the piece and is left to the board
index. -/
structure Piece where
  type : PieceType
  color : Color
  hasMoved : Bool
deriving DecidableEq

/-- The data members of class `Player` (`Player.h`).  `timeLeft_` is a
`std::chrono::seconds`, i.e. a signed integer count of seconds. -/
structure Player where
  name : String
  color : Color
  timeLeft : Int
  movesPlayed : Int
  isHuman : Bool
  capturedPieces : Int
  checksGiven : Int
  isInCheck : Bool
deriving DecidableEq

/-- `Player::getTimeLeft` (inline in `Player.h`). -/
def Player.getTimeLeft (p : Player) : Int := p.timeLeft

/-- `Player::subtractTime` (inline in `Player.h`):
`timeLeft_ -= seconds; if (timeLeft_ < 0) timeLeft_ = 0;`. -/
def Player.subtractTime (p : Player) (seconds : Int) : Player :=
  let t := p.timeLeft - seconds
  if t < 0 then { p with timeLeft := 0 } else { p with timeLeft := t }

/-- `Player::hasTimeLeft` (inline in `Player.h`):
`timeLeft_ > std::chrono::seconds(0)`. -/
def Player.hasTimeLeft (p : Player) : Bool :=
  decide (p.timeLeft > 0)

/-- The grid type of `Board::board_`: an 8x8 array of owning pointers,
embedded as rows of optional pieces (`none` = empty square). -/
def Grid := List (List (Option Piece))

instance : DecidableEq Grid :=
  inferInstanceAs (DecidableEq (List (List (Option Piece))))

/-- The data members of class `Board` (`Board.h`): the grid, the last
move record with its presence flag, and the four castling-rights flags. -/
structure Board where
  grid : Grid
  lastMove_ : Move
  hasLastMove_ : Bool
  whiteKingSideCastle_ : Bool
  whiteQueenSideCastle_ : Bool
  blackKingSideCastle_ : Bool
  blackQueenSideCastle_ : Bool
deriving DecidableEq

/-- `Board::getPieceAt`: returns the piece at a position, or nothing for
an empty square or an out-of-bounds position. -/
def Board.getPieceAt (b : Board) (p : Position) : Option Piece :=
  if p.isValid then
    match b.grid.get? p.row.toNat with
    | some r => (r.get? p.col.toNat).join
    | none => none
  else none

/-- Write a square of the grid (helper for `setPieceAt`/`removePieceAt`). -/
def Grid.setSquare (g : Grid) (p : Position) (v : Option Piece) : Grid :=
  if p.isValid then
    match List.get? g p.row.toNat with
    | some r => List.set g p.row.toNat (r.set p.col.toNat v)
    | none => g
  else g

/-- `Board::setPieceAt`: place a piece (or clear) at a position. -/
def Board.setPieceAt (b : Board) (p : Position) (v : Option Piece) : Board :=
  { b with grid := b.grid.setSquare p v }

/-- `Board::isEmpty`: no piece at the position. -/
def Board.isEmptySq (b : Board) (p : Position) : Bool :=
  (b.getPieceAt p).isNone

/-- `Board::hasPieceOfColor`: a piece of the given color sits at the
position. -/
def Board.hasPieceOfColor (b : Board) (p : Position) (c : Color) : Bool :=
  match b.getPieceAt p with
  | some pc => decide (pc.color = c)
  | none => false

/-- `Board::getLastMove` (inline in `Board.h`):
`hasLastMove_ ? lastMove_ : Move(Position(-1, -1), Position(-1, -1))`. -/
def Board.getLastMove (b : Board) : Move :=
  if b.hasLastMove_ then b.lastMove_ else Move.mk (Position.mk (-1) (-1)) (Position.mk (-1) (-1))

/-- `Board::hasLastMove` (inline in `Board.h`). -/
def Board.hasLastMove (b : Board) : Bool := b.hasLastMove_

/-- `Board::setLastMove` (inline in `Board.h`):
`lastMove_ = move; hasLastMove_ = true;`. -/
def Board.setLastMove (b : Board) (m : Move) : Board :=
  { b with lastMove_ := m, hasLastMove_ := true }

/-- `Board::canCastle` (declared in `Board.h`): reads the stored
castling-rights flag for the color and side.  The header documents the
flags as "Castle rights tracking"; by the specification's invariant a
flag is true only while neither the king nor that side's rook has moved
and the rook has not been captured on its home square. -/
def Board.canCastle (b : Board) (c : Color) (kingSide : Bool) : Bool :=
  match c, kingSide with
  | Color.WHITE, true => b.whiteKingSideCastle_
  | Color.WHITE, false => b.whiteQueenSideCastle_
  | Color.BLACK, true => b.blackKingSideCastle_
  | Color.BLACK, false => b.blackQueenSideCastle_

/-- All 64 board coordinates, row-major. -/
def allPositions : List Position :=
  (List.range 8).flatMap fun r => (List.range 8).map fun c => Position.mk (Int.ofNat r) (Int.ofNat c)

/-- A pawn's forward direction (`Pawn.h`: +1 for white moving up,
-1 for black moving down). -/
def pawnDir : Color → Int
  | Color.WHITE => 1
  | Color.BLACK => -1

/-- A pawn's starting rank (white pawns on row 1, black pawns on row 6,
matching the standard setup with white on rows 0-1). -/
def pawnStartRow : Color → Int
  | Color.WHITE => 1
  | Color.BLACK => 6

/-- Modelled from the spec: the en-passant target square, "the square
skipped by a pawn's two-square advance" on the immediately preceding
move, derived from the board's last-move record; `none` when the last
move was not a pawn double step (the body of `Pawn::isEnPassant` is not
in the repository). -/
def Board.epSquare (b : Board) : Option Position :=
  if b.hasLastMove_ then
    let lm := b.lastMove_
    match b.getPieceAt lm.to_ with
    | some pc =>
      if pc.type = PieceType.PAWN ∧ lm.from_.col = lm.to_.col then
        if lm.from_.row - lm.to_.row = 2 then some (Position.mk (lm.to_.row + 1) lm.to_.col)
        else if lm.to_.row - lm.from_.row = 2 then some (Position.mk (lm.to_.row - 1) lm.to_.col)
        else none
      else none
    | none => none
  else none

/-- Modelled from the spec: sliding-piece walk along one direction
vector — "stop and exclude on own-color occupancy; stop and include on
enemy occupancy (capture); stop at board edge" (§4.1).  `fuel` bounds the
walk; 8 steps always reach the edge.  (The bodies of
`Rook::getMovesInDirection` etc. are not in the repository.) -/
def slideTargets (b : Board) (c : Color) (p : Position) (dr dc : Int) : Nat → List Position
  | 0 => []
  | fuel + 1 =>
    let q := Position.mk (p.row + dr) (p.col + dc)
    if q.isValid then
      match b.getPieceAt q with
      | none => q :: slideTargets b c q dr dc fuel
      | some pc => if pc.color = c then [] else [q]
    else []

/-- The four rook directions. -/
def rookDirs : List (Int × Int) := [(1, 0), (-1, 0), (0, 1), (0, -1)]

/-- The four bishop directions. -/
def bishopDirs : List (Int × Int) := [(1, 1), (1, -1), (-1, 1), (-1, -1)]

/-- Knight offsets (`Knight.h`: L-shaped moves). -/
def knightOffsets : List (Int × Int) :=
  [(2, 1), (2, -1), (-2, 1), (-2, -1), (1, 2), (1, -2), (-1, 2), (-1, -2)]

/-- King offsets (`King.h`: one square in any of 8 directions). -/
def kingOffsets : List (Int × Int) :=
  [(1, 0), (-1, 0), (0, 1), (0, -1), (1, 1), (1, -1), (-1, 1), (-1, -1)]

/-- Modelled from the spec: fixed-offset movers — "fixed offset sets,
filtered to board bounds and non-friendly occupancy" (§4.1). -/
def leapTargets (b : Board) (c : Color) (p : Position) (offs : List (Int × Int)) : List Position :=
  (offs.map fun o => Position.mk (p.row + o.1) (p.col + o.2)).filter fun q =>
    q.isValid && !(b.hasPieceOfColor q c)

/-- Modelled from the spec: pawn pseudo-legal destinations (§4.1) —
one-step forward onto an empty square; two-step forward from the starting
rank when both squares are empty; diagonal only as a capture, either onto
an enemy piece or onto the en-passant target square skipped by an enemy
pawn's double step on the preceding move.  (The body of
`Pawn::getLegalMoves` is not in the repository.) -/
def pawnTargets (b : Board) (c : Color) (p : Position) : List Position :=
  let d := pawnDir c
  let one := Position.mk (p.row + d) p.col
  let two := Position.mk (p.row + 2 * d) p.col
  let fwd :=
    (if one.isValid && b.isEmptySq one then [one] else []) ++
    (if decide (p.row = pawnStartRow c) && one.isValid && b.isEmptySq one &&
        two.isValid && b.isEmptySq two then [two] else [])
  let caps := [Position.mk (p.row + d) (p.col - 1), Position.mk (p.row + d) (p.col + 1)].filter
    fun q => q.isValid &&
      (b.hasPieceOfColor q c.opposite ||
       (decide (b.epSquare = some q) && b.hasPieceOfColor b.lastMove_.to_ c.opposite))
  fwd ++ caps

/-- Modelled from the spec: a piece's pseudo-legal destination squares
(§4.1), dispatching on the piece kind.  Castling is generated separately
(it is not an attack and its conditions consult attack status). -/
def pieceTargets (b : Board) (pc : Piece) (p : Position) : List Position :=
  match pc.type with
  | PieceType.ROOK => rookDirs.flatMap fun o => slideTargets b pc.color p o.1 o.2 8
  | PieceType.BISHOP => bishopDirs.flatMap fun o => slideTargets b pc.color p o.1 o.2 8
  | PieceType.QUEEN => (rookDirs ++ bishopDirs).flatMap fun o => slideTargets b pc.color p o.1 o.2 8
  | PieceType.KNIGHT => leapTargets b pc.color p knightOffsets
  | PieceType.KING => leapTargets b pc.color p kingOffsets
  | PieceType.PAWN => pawnTargets b pc.color p

/-- Modelled from the spec: `Board::isPositionUnderAttack` — "check
whether any enemy piece's pseudo-legal move set includes the ... square"
(§4.2). -/
def Board.isPositionUnderAttack (b : Board) (target : Position) (attackingColor : Color) : Bool :=
  allPositions.any fun p =>
    match b.getPieceAt p with
    | some pc => decide (pc.color = attackingColor) && decide (target ∈ pieceTargets b pc p)
    | none => false

/-- Modelled from the spec: `Board::findKing` — "locate a color's king"
(§4.3), scanning the grid. -/
def Board.findKing (b : Board) (c : Color) : Option Position :=
  allPositions.find? fun p =>
    match b.getPieceAt p with
    | some pc => decide (pc.type = PieceType.KING) && decide (pc.color = c)
    | none => false

/-- Modelled from the spec: `Board::isKingInCheck` — the color's king
square is attacked by the opposite color. -/
def Board.isKingInCheck (b : Board) (c : Color) : Bool :=
  match b.findKing c with
  | some k => b.isPositionUnderAttack k c.opposite
  | none => false

/-- Modelled from the spec: `Board::makeTemporaryMove` — "apply the
candidate move to a disposable scratch copy of the board" (§4.2), as the
raw relocation of §4.3 (capture by overwrite, mark the piece moved,
record the move as the board's last move). -/
def Board.makeTemporaryMove (b : Board) (m : Move) : Board :=
  match b.getPieceAt m.from_ with
  | none => b
  | some pc =>
    (((b.setPieceAt m.from_ none).setPieceAt m.to_
        (some { pc with hasMoved := true })).setLastMove m)

/-- A color's home rank: row 0 for white, row 7 for black. -/
def homeRow : Color → Int
  | Color.WHITE => 0
  | Color.BLACK => 7

/-- The king's home square (e-file, column 4). -/
def kingHome (c : Color) : Position := Position.mk (homeRow c) 4

/-- The king's destination square when castling: column 6 kingside,
column 2 queenside. -/
def castleDest (c : Color) (kingSide : Bool) : Position :=
  Position.mk (homeRow c) (if kingSide then 6 else 2)

/-- The castling move of a king: two squares toward the rook. -/
def castleMoveOf (c : Color) (kingSide : Bool) : Move :=
  Move.mk (kingHome c) (castleDest c kingSide)

/-- The squares strictly between king and rook: columns 5,6 kingside,
columns 1,2,3 queenside. -/
def betweenSquares (c : Color) (kingSide : Bool) : List Position :=
  if kingSide then [Position.mk (homeRow c) 5, Position.mk (homeRow c) 6]
  else [Position.mk (homeRow c) 1, Position.mk (homeRow c) 2, Position.mk (homeRow c) 3]

/-- The squares the castling king passes through or lands on:
columns 5,6 kingside, columns 3,2 queenside. -/
def kingPassSquares (c : Color) (kingSide : Bool) : List Position :=
  if kingSide then [Position.mk (homeRow c) 5, Position.mk (homeRow c) 6]
  else [Position.mk (homeRow c) 3, Position.mk (homeRow c) 2]

/-- All squares strictly between king and rook are empty. -/
def Board.castleBetweenEmpty (b : Board) (c : Color) (kingSide : Bool) : Bool :=
  (betweenSquares c kingSide).all b.isEmptySq

/-- No square the castling king passes through or lands on is attacked
by the opponent. -/
def Board.castlePathSafe (b : Board) (c : Color) (kingSide : Bool) : Bool :=
  (kingPassSquares c kingSide).all fun q => !(b.isPositionUnderAttack q c.opposite)

/-- Modelled from the spec: `King::canCastle` (§4.1) — "neither king nor
the corresponding rook has moved [the castling-rights flag]; all squares
strictly between them are empty; the king is not currently in check; no
square the king passes through or lands on is attacked by the opponent".
Written as the per-square walk that `King::isCastlingPathValid` (whose
body is not in the repository) would perform. -/
def Board.kingCanCastle (b : Board) (c : Color) (kingSide : Bool) : Bool :=
  b.canCastle c kingSide && !(b.isKingInCheck c) &&
  (if kingSide then
    b.isEmptySq (Position.mk (homeRow c) 5) && b.isEmptySq (Position.mk (homeRow c) 6) &&
    !(b.isPositionUnderAttack (Position.mk (homeRow c) 5) c.opposite) &&
    !(b.isPositionUnderAttack (Position.mk (homeRow c) 6) c.opposite)
  else
    b.isEmptySq (Position.mk (homeRow c) 1) && b.isEmptySq (Position.mk (homeRow c) 2) &&
    b.isEmptySq (Position.mk (homeRow c) 3) &&
    !(b.isPositionUnderAttack (Position.mk (homeRow c) 3) c.opposite) &&
    !(b.isPositionUnderAttack (Position.mk (homeRow c) 2) c.opposite))

/-- Modelled from the spec: the king's castling move options — "up to two
castling moves" (§4.1), generated only for a king standing on its home
square and only when `King::canCastle` holds for that side. -/
def castleMoves (b : Board) (pc : Piece) (p : Position) : List Move :=
  if pc.type = PieceType.KING ∧ p = kingHome pc.color then
    (if b.kingCanCastle pc.color true then [Move.mk p (castleDest pc.color true)] else []) ++
    (if b.kingCanCastle pc.color false then [Move.mk p (castleDest pc.color false)] else [])
  else []

/-- Modelled from the spec: all pseudo-legal moves of one piece — its
destination squares as moves from its square, plus a king's castling
options (§4.1). -/
def pieceMoves (b : Board) (pc : Piece) (p : Position) : List Move :=
  ((pieceTargets b pc p).map fun q => Move.mk p q) ++ castleMoves b pc p

/-- Modelled from the spec: a move is pseudo-legal when the piece on its
source square generates it (§4.1, glossary). -/
def Board.isPseudoLegalMove (b : Board) (m : Move) : Bool :=
  match b.getPieceAt m.from_ with
  | some pc => decide (m ∈ pieceMoves b pc m.from_)
  | none => false

/-- The color of the piece on the move's source square (the mover). -/
def Board.moverColor (b : Board) (m : Move) : Option Color :=
  (b.getPieceAt m.from_).map Piece.color

/-- Modelled from the spec: `Board::isMoveLegal` (§4.2) — "Legality =
pseudo-legal AND does not leave the mover's own king in check", tested on
the scratch board produced by `makeTemporaryMove`. -/
def Board.isMoveLegal (b : Board) (m : Move) : Bool :=
  match b.getPieceAt m.from_ with
  | some pc => b.isPseudoLegalMove m && !((b.makeTemporaryMove m).isKingInCheck pc.color)
  | none => false

/-- Modelled from the spec: `Board::getAllLegalMoves` — "enumerate legal
moves for a color (filtered through 4.2)": the union of the color's
pieces' pseudo-legal moves, filtered by `isMoveLegal`. -/
def Board.getAllLegalMoves (b : Board) (c : Color) : List Move :=
  (allPositions.flatMap fun p =>
    match b.getPieceAt p with
    | some pc => if pc.color = c then pieceMoves b pc p else []
    | none => []).filter b.isMoveLegal

/-- `enum class GameResult` from `Game.h`. -/
inductive GameResult where
  | ONGOING
  | WHITE_WINS
  | BLACK_WINS
  | DRAW_STALEMATE
  | DRAW_INSUFFICIENT_MATERIAL
  | DRAW_THREEFOLD_REPETITION
  | DRAW_FIFTY_MOVE_RULE
  | DRAW_AGREEMENT
  | WHITE_TIMEOUT
  | BLACK_TIMEOUT
deriving DecidableEq

/-- `struct GameState` from `Game.h`: the snapshot pushed on the undo
stack — board, both players, side to move, move number, halfmove clock. -/
structure GameState where
  board : Board
  whitePlayer : Player
  blackPlayer : Player
  currentPlayer : Color
  moveNumber : Int
  halfMoveClock : Int
deriving DecidableEq

/-- The data members of class `Game` (`Game.h`). -/
structure Game where
  board : Board
  whitePlayer : Player
  blackPlayer : Player
  currentPlayer : Color
  result : GameResult
  moveNumber : Int
  halfMoveClock : Int
  moveHistory : List Move
  gameStates : List GameState
  gameStarted : Bool
  gameOver : Bool
  allowUndo : Bool
  timeLimitEnabled : Bool
deriving DecidableEq

/-- Raw relocation of a piece between two squares (no last-move update),
used for the castling rook. -/
def Board.relocate (b : Board) (src dst : Position) : Board :=
  match b.getPieceAt src with
  | none => b
  | some pc => (b.setPieceAt src none).setPieceAt dst (some { pc with hasMoved := true })

/-- Modelled from the spec: the move is an en-passant capture — a pawn
moving diagonally onto the empty en-passant target square (§4.1; the body
of `Pawn::isEnPassant` is not in the repository). -/
def Board.isEnPassantCapture (b : Board) (pc : Piece) (m : Move) : Bool :=
  decide (pc.type = PieceType.PAWN) && decide (b.epSquare = some m.to_) &&
  b.isEmptySq m.to_ && decide (m.from_.col ≠ m.to_.col)

/-- Modelled from the spec: `Board::updateCastlingRights` — a flag is
cleared "whenever a king/rook moves or a rook is captured on its home
square" (§4.3), i.e. whenever the move touches the king's or that rook's
home square. -/
def Board.updateCastlingRights (b : Board) (src dst : Position) : Board :=
  let touched := fun (q : Position) => decide (src = q) || decide (dst = q)
  { b with
    whiteKingSideCastle_ :=
      b.whiteKingSideCastle_ && !(touched (Position.mk 0 4) || touched (Position.mk 0 7)),
    whiteQueenSideCastle_ :=
      b.whiteQueenSideCastle_ && !(touched (Position.mk 0 4) || touched (Position.mk 0 0)),
    blackKingSideCastle_ :=
      b.blackKingSideCastle_ && !(touched (Position.mk 7 4) || touched (Position.mk 7 7)),
    blackQueenSideCastle_ :=
      b.blackQueenSideCastle_ && !(touched (Position.mk 7 4) || touched (Position.mk 7 0)) }

/-- Modelled from the spec: applying an accepted move to the board —
"relocate, capture, move the castling rook, remove the
en-passant-captured pawn" (§4.4).  `pc` is the piece on the source
square.  The spec also says "substitute the promoted piece", but the
`Move` struct of `Piece.h` carries no promotion choice, so no
substitution can be modelled. -/
def Board.applyMove (b : Board) (pc : Piece) (m : Move) : Board :=
  let epCap := b.isEnPassantCapture pc m
  let b1 := b.makeTemporaryMove m
  let b2 := if epCap then b1.setPieceAt (Position.mk m.from_.row m.to_.col) none else b1
  let b3 :=
    if pc.type = PieceType.KING ∧ m = castleMoveOf pc.color true then
      b2.relocate (Position.mk (homeRow pc.color) 7) (Position.mk (homeRow pc.color) 5)
    else if pc.type = PieceType.KING ∧ m = castleMoveOf pc.color false then
      b2.relocate (Position.mk (homeRow pc.color) 0) (Position.mk (homeRow pc.color) 3)
    else b2
  b3.updateCastlingRights m.from_ m.to_

/-- Every occupied square holds a king (used for the insufficient-material
test). -/
def Board.onlyKings (b : Board) : Bool :=
  allPositions.all fun p =>
    match b.getPieceAt p with
    | some pc => decide (pc.type = PieceType.KING)
    | none => true

/-- Modelled from the spec: `Game::isInsufficientMaterial` — "a position
containing only the two kings reports DrawInsufficientMaterial" (§8); the
body is not in the repository, so only the bare-kings case is modelled. -/
def Game.isInsufficientMaterial (g : Game) : Bool := g.board.onlyKings

/-- Modelled from the spec: `Game::isFiftyMoveRule` — "DrawFiftyMove
(halfmove clock ≥ 100 half-moves)" (§4.4); the body is not in the
repository. -/
def Game.isFiftyMoveRule (g : Game) : Bool :=
  decide (100 ≤ g.halfMoveClock)

/-- The piece placement component of a position: piece kind and color per
square, without the `hasMoved` bookkeeping. -/
def Board.placementGrid (b : Board) : List (List (Option (PieceType × Color))) :=
  b.grid.map fun r => r.map fun sq => sq.map fun pc => (pc.type, pc.color)

/-- The four castling-rights flags as one tuple. -/
def Board.castlingTuple (b : Board) : Bool × Bool × Bool × Bool :=
  (b.whiteKingSideCastle_, b.whiteQueenSideCastle_,
   b.blackKingSideCastle_, b.blackQueenSideCastle_)

/-- The identity of a position for repetition purposes: the four
components {piece placement, side to move, castling rights, en-passant
target} (§4.4, §9). -/
structure PositionKey where
  placement : List (List (Option (PieceType × Color)))
  sideToMove : Color
  castlingRights : Bool × Bool × Bool × Bool
  epTarget : Option Position
deriving DecidableEq

/-- The repetition key of a board with a given side to move. -/
def posKeyOf (b : Board) (stm : Color) : PositionKey :=
  PositionKey.mk b.placementGrid stm b.castlingTuple b.epSquare

/-- The repetition keys of every position in the game's history: all
snapshots on the undo stack plus the current position. -/
def Game.historyKeys (g : Game) : List PositionKey :=
  (g.gameStates.map fun s => posKeyOf s.board s.currentPlayer) ++
    [posKeyOf g.board g.currentPlayer]

/-- Modelled from the spec: `Game::isThreefoldRepetition` — an "identical
{placement, side-to-move, castling rights, en-passant target}" position
"recurring 3 times across history" (§4.4); the body is not in the
repository. -/
def Game.isThreefoldRepetition (g : Game) : Bool :=
  g.historyKeys.any fun k => decide (3 ≤ g.historyKeys.count k)

/-- Modelled from the spec: `Game::checkGameEnd` — "evaluate terminal
conditions in priority order: Checkmate > Stalemate >
DrawInsufficientMaterial > DrawFiftyMove > DrawThreefold > remain
InProgress" (§4.4); the body is not in the repository. -/
def Game.checkGameEnd (g : Game) : Game :=
  let noMoves := (g.board.getAllLegalMoves g.currentPlayer).isEmpty
  let inCheck := g.board.isKingInCheck g.currentPlayer
  if noMoves && inCheck then
    { g with
      result := if g.currentPlayer = Color.WHITE then GameResult.BLACK_WINS
                else GameResult.WHITE_WINS,
      gameOver := true }
  else if noMoves then
    { g with result := GameResult.DRAW_STALEMATE, gameOver := true }
  else if g.isInsufficientMaterial then
    { g with result := GameResult.DRAW_INSUFFICIENT_MATERIAL, gameOver := true }
  else if g.isFiftyMoveRule then
    { g with result := GameResult.DRAW_FIFTY_MOVE_RULE, gameOver := true }
  else if g.isThreefoldRepetition then
    { g with result := GameResult.DRAW_THREEFOLD_REPETITION, gameOver := true }
  else g

/-- Modelled from the spec: `Game::saveGameState` — the snapshot of the
current state "pushed onto an undo stack before each applied move"
(§3). -/
def Game.snapshot (g : Game) : GameState :=
  GameState.mk g.board g.whitePlayer g.blackPlayer g.currentPlayer g.moveNumber g.halfMoveClock

/-- The submitted move is legal for the side to move: the source square
holds a piece of the current player's color and the move passes
`Board::isMoveLegal`. -/
def Game.legalForSideToMove (g : Game) (m : Move) : Bool :=
  match g.board.getPieceAt m.from_ with
  | some pc => decide (pc.color = g.currentPlayer) && g.board.isMoveLegal m
  | none => false

/-- Modelled from the spec: `Game::makeMove` — `submitMove` of §4.4:
reject (no mutation) unless in progress and the move is legal for the
side to move; otherwise push a snapshot, apply the move, reset the
halfmove clock on capture or pawn move else increment it, increment the
move number after Black's move, append to the history, switch the side
to move, and evaluate terminal conditions; the body is not in the
repository.  `afterMove` is the accepted-move update: push the snapshot,
apply the move to the board, reset the halfmove clock on capture or pawn
move else increment it, increment the move number after Black's move,
append to the history, switch the side to move. -/
def Game.afterMove (g : Game) (pc : Piece) (m : Move) : Game :=
  { g with
    board := g.board.applyMove pc m,
    currentPlayer := g.currentPlayer.opposite,
    moveNumber := if g.currentPlayer = Color.BLACK then g.moveNumber + 1 else g.moveNumber,
    halfMoveClock :=
      if (!(g.board.isEmptySq m.to_) || g.board.isEnPassantCapture pc m) ||
          pc.type = PieceType.PAWN then 0
      else g.halfMoveClock + 1,
    moveHistory := g.moveHistory ++ [m],
    gameStates := g.snapshot :: g.gameStates }

/-- Modelled from the spec: `Game::makeMove` — reject with no mutation
unless the game is in progress, the source square holds a piece of the
side to move, and the move is legal; otherwise perform `afterMove` and
evaluate terminal conditions (§4.4). -/
def Game.makeMove (g : Game) (m : Move) : Bool × Game :=
  if !g.gameStarted || g.gameOver then (false, g)
  else
    match g.board.getPieceAt m.from_ with
    | none => (false, g)
    | some pc =>
      if pc.color ≠ g.currentPlayer then (false, g)
      else if !(g.board.isMoveLegal m) then (false, g)
      else (true, (g.afterMove pc m).checkGameEnd)

/-- Modelled from the spec: `Game::undoLastMove` — "pops the last
snapshot and restores it; fails with NoHistory if the stack is empty or
undo is disabled" (§4.4); the body is not in the repository. -/
def Game.undoLastMove (g : Game) : Bool × Game :=
  if !g.allowUndo then (false, g)
  else
    match g.gameStates with
    | [] => (false, g)
    | s :: rest =>
      (true, { g with
        board := s.board,
        whitePlayer := s.whitePlayer,
        blackPlayer := s.blackPlayer,
        currentPlayer := s.currentPlayer,
        moveNumber := s.moveNumber,
        halfMoveClock := s.halfMoveClock,
        moveHistory := g.moveHistory.dropLast,
        gameStates := rest,
        result := GameResult.ONGOING,
        gameOver := false })

/-! ## Concrete fixtures used by the witness theorems -/

/-- A row of eight empty squares. -/
def emptyRow : List (Option Piece) := List.replicate 8 none

/-- A white king that has not moved. -/
def wK : Option Piece := some (Piece.mk PieceType.KING Color.WHITE false)

/-- A black king that has not moved. -/
def bK : Option Piece := some (Piece.mk PieceType.KING Color.BLACK false)

/-- A white rook that has not moved. -/
def wR : Option Piece := some (Piece.mk PieceType.ROOK Color.WHITE false)

/-- The sentinel move `Move(Position(-1, -1), Position(-1, -1))`. -/
def sentinelMove : Move := Move.mk (Position.mk (-1) (-1)) (Position.mk (-1) (-1))

/-- A small test position: white king e1, white rook a1, black king e8. -/
def testGrid : Grid :=
  [[wR, none, none, none, wK, none, none, none],
   emptyRow, emptyRow, emptyRow, emptyRow, emptyRow, emptyRow,
   [none, none, none, none, bK, none, none, none]]

/-- The test position as a board with no last move and no castling
rights. -/
def testBoard : Board :=
  Board.mk testGrid sentinelMove false false false false false

/-- A white test player. -/
def pW : Player := Player.mk "W" Color.WHITE 1800 0 true 0 0 false

/-- A black test player. -/
def pB : Player := Player.mk "B" Color.BLACK 1800 0 true 0 0 false

/-- A game in progress on the test position, white to move, undo
allowed. -/
def testGame : Game :=
  { board := testBoard, whitePlayer := pW, blackPlayer := pB,
    currentPlayer := Color.WHITE, result := GameResult.ONGOING,
    moveNumber := 1, halfMoveClock := 0, moveHistory := [], gameStates := [],
    gameStarted := true, gameOver := false, allowUndo := true, timeLimitEnabled := false }

/-- A legal test move: the rook a1 to a4. -/
def mRook : Move := Move.mk (Position.mk 0 0) (Position.mk 3 0)

/-- An illegal test move: the rook a1 diagonally to b2. -/
def mBad : Move := Move.mk (Position.mk 0 0) (Position.mk 1 1)

/-- A castling test position: white king e1 and rook h1 in place with the
kingside right, black king e8. -/
def castleGrid : Grid :=
  [[none, none, none, none, wK, none, none, wR],
   emptyRow, emptyRow, emptyRow, emptyRow, emptyRow, emptyRow,
   [none, none, none, none, bK, none, none, none]]

/-- The castling test position as a board with the white kingside right
set. -/
def castleBoard : Board := Board.mk castleGrid sentinelMove false true false false false

/-! ## Theorems -/

/-- C8: for every `Position p` with integer fields `row` and `col`,
`p.isValid()` returns true iff `0 ≤ row < 8` and `0 ≤ col < 8`. -/
theorem position_isValid_iff (p : Position) :
    p.isValid = true ↔ (0 ≤ p.row ∧ p.row < 8 ∧ 0 ≤ p.col ∧ p.col < 8) := by
  simp [Position.isValid, Bool.and_eq_true, decide_eq_true_iff, ge_iff_le, and_assoc]

/-- C9: after `Player::subtractTime(s)` the remaining time is the
previous remaining time minus `s`, clamped below at zero; hence the
remaining time is never negative after a `subtractTime` call, and
`hasTimeLeft()` returns true iff the remaining time is strictly
positive. -/
theorem subtractTime_clamps_at_zero (p : Player) (s : Int) :
    (p.subtractTime s).getTimeLeft = max (p.getTimeLeft - s) 0 ∧
    0 ≤ (p.subtractTime s).getTimeLeft ∧
    ((p.subtractTime s).hasTimeLeft = true ↔ 0 < (p.subtractTime s).getTimeLeft) ∧
    (p.hasTimeLeft = true ↔ 0 < p.getTimeLeft) := by
  simp only [Player.subtractTime, Player.getTimeLeft, Player.hasTimeLeft,
    gt_iff_lt, decide_eq_true_iff]
  split <;> simp_all
  all_goals omega

/-- C7 counterexample: the `Move` struct of `Piece.h` carries no data
besides its `from` and `to` coordinates — there are no two distinct
`Move` values with the same endpoints, so in particular no Move with
source (6,0) and destination (7,0) (a pawn reaching the farthest rank)
can carry a promotion-piece choice distinguishing it from the bare
coordinate pair. -/
theorem move_has_no_promotion_field :
    ¬ ∃ m : Move, m.from_ = Position.mk 6 0 ∧ m.to_ = Position.mk 7 0 ∧
      m ≠ Move.mk (Position.mk 6 0) (Position.mk 7 0) := by
  rintro ⟨⟨mf, mt⟩, hf, ht, hne⟩
  exact hne (by cases hf; cases ht; rfl)

/-- C7 (amended): every `Move` value carries exactly its `from` and `to`
coordinates: two moves agreeing on `from` and `to` are equal, so no
optional promotion-piece kind and no `isCastle`/`isEnPassant`/
`isDoubleStep` flags exist, and no explicit promotion choice can
accompany a move. -/
theorem move_determined_by_from_to (m₁ m₂ : Move)
    (h₁ : m₁.from_ = m₂.from_) (h₂ : m₁.to_ = m₂.to_) : m₁ = m₂ := by
  cases m₁; cases m₂; cases h₁; cases h₂; rfl

/-- Witness for `move_determined_by_from_to` at a concrete input. -/
theorem move_determined_by_from_to_witness :
    Move.mk (Position.mk 6 0) (Position.mk 7 0) = Move.mk (Position.mk 6 0) (Position.mk 7 0) :=
  move_determined_by_from_to _ _ (by decide) (by decide)

/-- Every move generated for a piece starts at that piece's square. -/
theorem pieceMoves_source (b : Board) (pc : Piece) (p : Position) (m : Move)
    (h : m ∈ pieceMoves b pc p) : m.from_ = p := by
  unfold pieceMoves at h
  rcases List.mem_append.mp h with h1 | h2
  · obtain ⟨q, _, rfl⟩ := List.mem_map.mp h1
    rfl
  · unfold castleMoves at h2
    split at h2
    · rcases List.mem_append.mp h2 with h3 | h3 <;>
        · split at h3
          · simp only [List.mem_singleton] at h3
            subst h3
            rfl
          · simp at h3
    · simp at h2

/-- C1: every move the engine classifies as legal for a color (via
`Board::isMoveLegal` / membership in `Board::getAllLegalMoves`) leaves
the mover's own king unattacked on the scratch board obtained by
`Board::makeTemporaryMove`; and a move is legal iff its source square
holds a piece (the mover) and the move is pseudo-legal and the mover's
king is not in check on that scratch board. -/
theorem legal_moves_never_leave_king_in_check (b : Board) (c : Color) (m : Move) :
    (m ∈ b.getAllLegalMoves c → (b.makeTemporaryMove m).isKingInCheck c = false) ∧
    (b.isMoveLegal m = true ↔
      ∃ cm, b.moverColor m = some cm ∧ b.isPseudoLegalMove m = true ∧
        (b.makeTemporaryMove m).isKingInCheck cm = false) := by
  constructor
  · intro hmem
    unfold Board.getAllLegalMoves at hmem
    obtain ⟨hcand, hlegal⟩ := List.mem_filter.mp hmem
    obtain ⟨p, _, hmoves⟩ := List.mem_flatMap.mp hcand
    cases hpc : b.getPieceAt p with
    | none => rw [hpc] at hmoves; simp at hmoves
    | some pc =>
      rw [hpc] at hmoves
      dsimp only at hmoves
      by_cases hcol : pc.color = c
      · rw [if_pos hcol] at hmoves
        have hfrom : m.from_ = p := pieceMoves_source b pc p m hmoves
        unfold Board.isMoveLegal at hlegal
        rw [hfrom, hpc] at hlegal
        have h2 := (Bool.and_eq_true _ _).mp hlegal |>.2
        rw [Bool.not_eq_true'] at h2
        rwa [hcol] at h2
      · rw [if_neg hcol] at hmoves
        simp at hmoves
  · cases hpc : b.getPieceAt m.from_ with
    | none => simp [Board.isMoveLegal, Board.moverColor, hpc]
    | some pc =>
      simp [Board.isMoveLegal, Board.moverColor, hpc, Bool.and_eq_true, Bool.not_eq_true']

/-- Witness for `legal_moves_never_leave_king_in_check`: the rook move
a1-a4 is in white's legal moves on the test board, and white's king is
not in check after it. -/
theorem legal_moves_never_leave_king_in_check_witness :
    (testBoard.makeTemporaryMove mRook).isKingInCheck Color.WHITE = false :=
  (legal_moves_never_leave_king_in_check testBoard Color.WHITE mRook).1 (by decide)

/-- C4: for a king of color `c` standing on its home square, the
castling move toward side `s` is generated as legal iff all four
conditions hold — the castling right for that color and side (true only
while neither the king nor that rook has moved), all squares strictly
between king and rook empty, the king not currently in check, and no
square the king passes through or lands on attacked by the opponent;
violating any one condition makes the castling move illegal. -/
theorem castling_legal_iff_conditions (b : Board) (c : Color) (s : Bool) (pc : Piece)
    (hty : pc.type = PieceType.KING) (hcol : pc.color = c) :
    (castleMoveOf c s ∈ castleMoves b pc (kingHome c) ↔ b.kingCanCastle c s = true) ∧
    (b.kingCanCastle c s = true ↔
      (b.canCastle c s = true ∧ b.castleBetweenEmpty c s = true ∧
       b.isKingInCheck c = false ∧ b.castlePathSafe c s = true)) := by
  constructor
  · unfold castleMoves
    rw [if_pos ⟨hty, by rw [hcol]⟩, hcol]
    cases s
    · constructor
      · intro hm
        rcases List.mem_append.mp hm with h | h <;> split at h <;>
          simp_all [castleMoveOf, castleDest]
      · intro hk
        refine List.mem_append.mpr (Or.inr ?_)
        rw [if_pos hk]
        exact List.mem_singleton_self _
    · constructor
      · intro hm
        rcases List.mem_append.mp hm with h | h <;> split at h <;>
          simp_all [castleMoveOf, castleDest]
      · intro hk
        refine List.mem_append.mpr (Or.inl ?_)
        rw [if_pos hk]
        exact List.mem_singleton_self _
  · unfold Board.kingCanCastle Board.castleBetweenEmpty Board.castlePathSafe
      betweenSquares kingPassSquares
    cases s <;>
      simp [List.all_cons, List.all_nil, Bool.and_eq_true, Bool.not_eq_true'] <;> tauto

/-- Witness for `castling_legal_iff_conditions`: on the castling test
board, white's kingside castle e1-g1 is generated, and all four
conditions hold there. -/
theorem castling_legal_iff_conditions_witness :
    castleMoveOf Color.WHITE true ∈
      castleMoves castleBoard (Piece.mk PieceType.KING Color.WHITE false) (kingHome Color.WHITE) :=
  ((castling_legal_iff_conditions castleBoard Color.WHITE true
      (Piece.mk PieceType.KING Color.WHITE false) rfl rfl).1).mpr (by decide)

/-- Terminal-condition evaluation does not touch the undo stack. -/
theorem checkGameEnd_gameStates (g : Game) : (g.checkGameEnd).gameStates = g.gameStates := by
  simp only [Game.checkGameEnd]
  repeat' split
  all_goals rfl

/-- Terminal-condition evaluation does not touch the undo setting. -/
theorem checkGameEnd_allowUndo (g : Game) : (g.checkGameEnd).allowUndo = g.allowUndo := by
  simp only [Game.checkGameEnd]
  repeat' split
  all_goals rfl

/-- Terminal-condition evaluation does not touch the halfmove clock. -/
theorem checkGameEnd_halfMoveClock (g : Game) :
    (g.checkGameEnd).halfMoveClock = g.halfMoveClock := by
  simp only [Game.checkGameEnd]
  repeat' split
  all_goals rfl

/-- If terminal-condition evaluation reports the fifty-move draw on a
game that was not already in that state, the fifty-move predicate held. -/
theorem checkGameEnd_fifty_source (g : Game)
    (h0 : g.result ≠ GameResult.DRAW_FIFTY_MOVE_RULE)
    (h : (g.checkGameEnd).result = GameResult.DRAW_FIFTY_MOVE_RULE) :
    g.isFiftyMoveRule = true := by
  simp only [Game.checkGameEnd] at h
  repeat' split at h
  all_goals simp_all

/-- Popping the undo stack restores the popped snapshot. -/
theorem undoLastMove_of (g : Game) (s : GameState) (rest : List GameState)
    (hu : g.allowUndo = true) (hgs : g.gameStates = s :: rest) :
    g.undoLastMove = (true,
      { g with
        board := s.board,
        whitePlayer := s.whitePlayer,
        blackPlayer := s.blackPlayer,
        currentPlayer := s.currentPlayer,
        moveNumber := s.moveNumber,
        halfMoveClock := s.halfMoveClock,
        moveHistory := g.moveHistory.dropLast,
        gameStates := rest,
        result := GameResult.ONGOING,
        gameOver := false }) := by
  unfold Game.undoLastMove
  rw [hu, hgs]
  rfl

/-- C2: in a game in progress, a submitted move that is not legal for
the side to move is rejected — `Game::makeMove` returns false — and the
entire game state is unchanged: board, side to move, move number,
halfmove clock, move history and undo stack keep their prior values. -/
theorem makeMove_illegal_rejected (g : Game) (m : Move)
    (hs : g.gameStarted = true) (ho : g.gameOver = false)
    (hl : g.legalForSideToMove m = false) :
    g.makeMove m = (false, g) ∧
    (g.makeMove m).2.board = g.board ∧
    (g.makeMove m).2.currentPlayer = g.currentPlayer ∧
    (g.makeMove m).2.moveNumber = g.moveNumber ∧
    (g.makeMove m).2.halfMoveClock = g.halfMoveClock ∧
    (g.makeMove m).2.moveHistory = g.moveHistory ∧
    (g.makeMove m).2.gameStates = g.gameStates := by
  have hmain : g.makeMove m = (false, g) := by
    unfold Game.legalForSideToMove at hl
    cases hpc : g.board.getPieceAt m.from_ with
    | none => simp [Game.makeMove, hs, ho, hpc]
    | some pc =>
      rw [hpc] at hl
      dsimp only at hl
      by_cases hcol : pc.color = g.currentPlayer
      · have hleg : g.board.isMoveLegal m = false := by simpa [hcol] using hl
        simp [Game.makeMove, hs, ho, hpc, hcol, hleg]
      · simp [Game.makeMove, hs, ho, hpc, hcol]
  exact ⟨hmain, by rw [hmain], by rw [hmain], by rw [hmain], by rw [hmain],
    by rw [hmain], by rw [hmain]⟩

/-- Witness for `makeMove_illegal_rejected`: the diagonal rook move
a1-b2 is rejected on the test game and the game value is unchanged. -/
theorem makeMove_illegal_rejected_witness :
    testGame.makeMove mBad = (false, testGame) :=
  (makeMove_illegal_rejected testGame mBad rfl rfl (by decide)).1

/-- The shape of a successful `Game::makeMove`: snapshot pushed, move
applied, clock and move number updated, side switched, history appended,
then terminal conditions evaluated. -/
theorem makeMove_success_shape (g : Game) (m : Move) (pc : Piece)
    (hs : g.gameStarted = true) (ho : g.gameOver = false)
    (hpc : g.board.getPieceAt m.from_ = some pc)
    (hcol : pc.color = g.currentPlayer) (hleg : g.board.isMoveLegal m = true) :
    g.makeMove m = (true, (g.afterMove pc m).checkGameEnd) := by
  unfold Game.makeMove
  rw [hs, ho, hpc]
  dsimp only
  rw [hcol, hleg]
  rw [if_neg (fun hc : (!true || false) = true => Bool.false_ne_true hc)]
  rw [if_neg (fun hc : g.currentPlayer ≠ g.currentPlayer => hc rfl)]
  rfl

/-- After terminal-condition evaluation, popping the undo stack restores
the snapshot on top of it. -/
theorem undo_after_checkGameEnd (gm : Game) (s : GameState) (rest : List GameState)
    (hu : gm.allowUndo = true) (hgs : gm.gameStates = s :: rest) :
    ((gm.checkGameEnd).undoLastMove).1 = true ∧
    ((gm.checkGameEnd).undoLastMove).2.board = s.board ∧
    ((gm.checkGameEnd).undoLastMove).2.currentPlayer = s.currentPlayer := by
  have hu' : (gm.checkGameEnd).allowUndo = true := by
    rw [checkGameEnd_allowUndo]; exact hu
  have hgs' : (gm.checkGameEnd).gameStates = s :: rest := by
    rw [checkGameEnd_gameStates]; exact hgs
  rw [undoLastMove_of _ s rest hu' hgs']
  exact ⟨rfl, rfl, rfl⟩

/-- C3: in a game in progress with undo allowed, making a legal move and
then undoing it restores a board identical piece-for-piece to the prior
board and restores the prior side to move. -/
theorem makeMove_undo_roundtrip (g : Game) (m : Move)
    (hs : g.gameStarted = true) (ho : g.gameOver = false) (hu : g.allowUndo = true)
    (hl : g.legalForSideToMove m = true) :
    (g.makeMove m).1 = true ∧
    ((g.makeMove m).2.undoLastMove).1 = true ∧
    ((g.makeMove m).2.undoLastMove).2.board = g.board ∧
    ((g.makeMove m).2.undoLastMove).2.currentPlayer = g.currentPlayer := by
  unfold Game.legalForSideToMove at hl
  cases hpc : g.board.getPieceAt m.from_ with
  | none => rw [hpc] at hl; simp at hl
  | some pc =>
    rw [hpc] at hl
    dsimp only at hl
    obtain ⟨hcolb, hleg⟩ := (Bool.and_eq_true _ _).mp hl
    have hcol : pc.color = g.currentPlayer := of_decide_eq_true hcolb
    rw [makeMove_success_shape g m pc hs ho hpc hcol hleg]
    exact ⟨rfl,
      (undo_after_checkGameEnd (g.afterMove pc m) g.snapshot g.gameStates hu rfl).1,
      (undo_after_checkGameEnd (g.afterMove pc m) g.snapshot g.gameStates hu rfl).2.1,
      (undo_after_checkGameEnd (g.afterMove pc m) g.snapshot g.gameStates hu rfl).2.2⟩

/-- Witness for `makeMove_undo_roundtrip`: making the rook move a1-a4 on
the test game and undoing it restores the test board and white to
move. -/
theorem makeMove_undo_roundtrip_witness :
    ((testGame.makeMove mRook).2.undoLastMove).2.board = testGame.board ∧
    ((testGame.makeMove mRook).2.undoLastMove).2.currentPlayer = testGame.currentPlayer :=
  ⟨(makeMove_undo_roundtrip testGame mRook rfl rfl rfl (by decide)).2.2.1,
   (makeMove_undo_roundtrip testGame mRook rfl rfl rfl (by decide)).2.2.2⟩

/-- C6: after a successful move in a game whose result was ongoing, the
reported result is DrawFiftyMove only when the halfmove clock has
reached at least 100 half-moves; the engine's fifty-move predicate
`Game::isFiftyMoveRule` holds exactly at the ≥ 100 half-move threshold
of §4.4; and conversely, terminal evaluation with the clock at ≥ 100 and
no higher-priority condition (checkmate, stalemate, insufficient
material) reports DrawFiftyMove. -/
theorem fifty_move_threshold (g g' : Game) (m : Move)
    (hres : g.result = GameResult.ONGOING) (h : g.makeMove m = (true, g')) :
    (g'.result = GameResult.DRAW_FIFTY_MOVE_RULE → 100 ≤ g'.halfMoveClock) ∧
    (g'.isFiftyMoveRule = true ↔ 100 ≤ g'.halfMoveClock) ∧
    (∀ gm : Game, (gm.board.getAllLegalMoves gm.currentPlayer).isEmpty = false →
      gm.isInsufficientMaterial = false → 100 ≤ gm.halfMoveClock →
      (gm.checkGameEnd).result = GameResult.DRAW_FIFTY_MOVE_RULE) := by
  refine ⟨?_, by simp [Game.isFiftyMoveRule], ?_⟩
  case refine_2 =>
    intro gm h1 h2 h3
    unfold Game.checkGameEnd
    simp [h1, h2, Game.isFiftyMoveRule, h3]
  intro hfif
  unfold Game.makeMove at h
  split at h
  · simp at h
  · cases hpc : g.board.getPieceAt m.from_ with
    | none => rw [hpc] at h; simp at h
    | some pc =>
      rw [hpc] at h
      dsimp only at h
      split at h
      · simp at h
      · split at h
        · simp at h
        · have hg' := congrArg Prod.snd h
          dsimp only at hg'
          rw [← hg'] at hfif ⊢
          rw [checkGameEnd_halfMoveClock]
          have h0 : (g.afterMove pc m).result ≠ GameResult.DRAW_FIFTY_MOVE_RULE := by
            have hr : (g.afterMove pc m).result = g.result := rfl
            rw [hr, hres]
            intro hc
            cases hc
          have hfifty := checkGameEnd_fifty_source _ h0 hfif
          exact of_decide_eq_true hfifty

/-- Witness for `fifty_move_threshold`: the rook move a1-a4 succeeds on
the test game, so the conclusion holds for the resulting state. -/
theorem fifty_move_threshold_witness :
    ((testGame.makeMove mRook).2.result = GameResult.DRAW_FIFTY_MOVE_RULE →
      100 ≤ (testGame.makeMove mRook).2.halfMoveClock) ∧
    ((testGame.makeMove mRook).2.isFiftyMoveRule = true ↔
      100 ≤ (testGame.makeMove mRook).2.halfMoveClock) :=
  ⟨(fifty_move_threshold testGame (testGame.makeMove mRook).2 mRook rfl (by decide)).1,
   (fifty_move_threshold testGame (testGame.makeMove mRook).2 mRook rfl (by decide)).2.1⟩

/-- C5: the threefold-repetition test reports repetition exactly when
some position key occurs at least 3 times across the game history, and
two positions have the same key iff they agree on all four components
{piece placement, side to move, castling rights, en-passant target}; in
particular, positions with equal placement but different castling rights
or different en-passant targets never share a key. -/
theorem threefold_key_and_count :
    (∀ g : Game, g.isThreefoldRepetition = true ↔
      ∃ k, k ∈ g.historyKeys ∧ 3 ≤ g.historyKeys.count k) ∧
    (∀ (b₁ b₂ : Board) (s₁ s₂ : Color),
      posKeyOf b₁ s₁ = posKeyOf b₂ s₂ ↔
        (b₁.placementGrid = b₂.placementGrid ∧ s₁ = s₂ ∧
         b₁.castlingTuple = b₂.castlingTuple ∧ b₁.epSquare = b₂.epSquare)) := by
  constructor
  · intro g
    unfold Game.isThreefoldRepetition
    rw [List.any_eq_true]
    simp [decide_eq_true_iff]
  · intro b₁ b₂ s₁ s₂
    unfold posKeyOf
    constructor
    · intro h
      injection h with h1 h2 h3 h4
      exact ⟨h1, h2, h3, h4⟩
    · rintro ⟨h1, h2, h3, h4⟩
      rw [h1, h2, h3, h4]

/-- C10: on a board with no recorded last move, `Board::getLastMove`
returns the sentinel move from `Position(-1,-1)` to `Position(-1,-1)`,
and both endpoints of that returned move fail `Position::isValid`. -/
theorem getLastMove_sentinel_when_absent (b : Board) (h : b.hasLastMove = false) :
    b.getLastMove = Move.mk (Position.mk (-1) (-1)) (Position.mk (-1) (-1)) ∧
    (b.getLastMove).from_.isValid = false ∧ (b.getLastMove).to_.isValid = false := by
  have hb : b.hasLastMove_ = false := h
  refine ⟨by simp [Board.getLastMove, hb], ?_, ?_⟩ <;>
    simp [Board.getLastMove, hb, Position.isValid]

/-- Witness for `getLastMove_sentinel_when_absent` on the concrete test
board. -/
theorem getLastMove_sentinel_when_absent_witness :
    testBoard.getLastMove = Move.mk (Position.mk (-1) (-1)) (Position.mk (-1) (-1)) ∧
    (testBoard.getLastMove).from_.isValid = false ∧
    (testBoard.getLastMove).to_.isValid = false :=
  getLastMove_sentinel_when_absent testBoard (by decide)

end Chess
